import Mathlib

/-!
# Verification of `OutputFileMap` (tools/worker/output_file_map.h)

A shallow embedding of the `OutputFileMap` component of `rules_swift`:
loading a `swiftc` output file map (a JSON document), rewriting a subset
of artifact paths into an incremental storage area, recording the
original → relocated correspondence in an ordered table
(`absl::btree_map<std::string, std::string>`), and serializing the map
back to bytes.

The repository provides the class declaration in
`src/tools/worker/output_file_map.h`; the bodies of `ReadFromPath`,
`WriteToPath` and `UpdateForIncremental` live in a translation unit not
present in the source tree, so those operations are modelled from the
specification (each such definition carries a `Modelled from the spec:`
doc comment naming what is missing).
-/

namespace OutputFileMapVerif

/-- The generic JSON tree value, mirroring `nlohmann::json`: the document
is treated as a generic structured value (mapping/array/string/number/
boolean/null).  Objects are association lists of key/value pairs; numbers
are modelled as integers (the output-file-map schema only ever carries
strings, so the inexact float cases are irrelevant here). -/
inductive Json where
  | null : Json
  | bool (b : Bool) : Json
  | num (n : Int) : Json
  | str (s : String) : Json
  | arr (elems : List Json) : Json
  | obj (entries : List (String × Json)) : Json
deriving Repr

/-- Escape one character the way the JSON serializer quotes string
contents: the quote and backslash are escaped, the common control
characters use their short escapes, and any other character is emitted
verbatim. -/
def escapeChar (c : Char) : String :=
  if c = '"' then "\\\""
  else if c = '\\' then "\\\\"
  else if c = '\n' then "\\n"
  else if c = '\t' then "\\t"
  else if c = '\r' then "\\r"
  else String.singleton c

/-- Quote a string as a JSON string literal. -/
def quoteString (s : String) : String :=
  "\"" ++ String.join (s.data.map escapeChar) ++ "\""

mutual

/-- Compact JSON serialization (`nlohmann::json::dump()` with no
indentation), producing the bytes written to disk. -/
def dump : Json → String
  | Json.null => "null"
  | Json.bool b => if b then "true" else "false"
  | Json.num n => toString n
  | Json.str s => quoteString s
  | Json.arr elems => "[" ++ dumpList elems ++ "]"
  | Json.obj entries => "\x7b" ++ dumpEntries entries ++ "\x7d"

/-- Serialize the elements of a JSON array, comma-separated. -/
def dumpList : List Json → String
  | [] => ""
  | [x] => dump x
  | x :: y :: rest => dump x ++ "," ++ dumpList (y :: rest)

/-- Serialize the members of a JSON object, comma-separated. -/
def dumpEntries : List (String × Json) → String
  | [] => ""
  | [(k, v)] => quoteString k ++ ":" ++ dump v
  | (k, v) :: e :: rest =>
      quoteString k ++ ":" ++ dump v ++ "," ++ dumpEntries (e :: rest)

end

/-- The artifact kinds selected for redirection into the incremental
storage area.  Modelled from the spec: the exact subset is fixed by the
missing translation unit; the spec requires at minimum the kind carrying
cross-build dependency-tracking state, and its worked scenario redirects
exactly `swift-dependencies` while leaving `object` untouched. -/
def redirectedKinds : List String := ["swift-dependencies"]

/-- Relocated-path derivation.  Modelled from the spec: the precise
derivation function lives in the missing translation unit; the spec
requires a deterministic, collision-free function of the original path,
derived "from the original path's identity … joined under the
storage-area root", e.g. by incorporating the full original path.  The
model joins the full original path under the storage-area root, which is
deterministic and injective in the original path. -/
def relocated (root p : String) : String := root ++ "/" ++ p

/-- Rewrite one output record (the mapping from artifact kind to output
path): each redirected kind's path value is overwritten with its
relocated equivalent; every other member is left untouched.  Modelled
from the spec: part of the rewrite pass of the missing
`UpdateForIncremental` body. -/
def rewriteRecord (root : String) (record : List (String × Json)) :
    List (String × Json) :=
  record.map fun kv =>
    if kv.1 ∈ redirectedKinds then
      match kv.2 with
      | Json.str p => (kv.1, Json.str (relocated root p))
      | v => (kv.1, v)
    else kv

/-- Rewrite the output record of one input key: the distinguished empty
(global) key is never touched; any other key's record is rewritten.
Modelled from the spec: part of the missing `UpdateForIncremental`
body. -/
def rewriteEntry (root : String) (k : String) (v : Json) : Json :=
  if k = "" then v
  else
    match v with
    | Json.obj record => Json.obj (rewriteRecord root record)
    | v => v

/-- `UpdateForIncremental`: modifies the output file map's JSON structure
in place to replace file paths with equivalents in the incremental
storage area.  Modelled from the spec: the body is in the missing
translation unit; the spec describes a structural walk over every input
key except the global key, rewriting only the recognized
(input-key, artifact-kind) pairs and leaving everything else
untouched. -/
def updateForIncremental (root : String) : Json → Json
  | Json.obj entries =>
      Json.obj (entries.map fun e => (e.1, rewriteEntry root e.1 e.2))
  | j => j

/-- The original paths that appear under a redirected artifact kind in
one output record, in document order. -/
def recordOriginals (record : List (String × Json)) : List String :=
  record.filterMap fun kv =>
    if kv.1 ∈ redirectedKinds then
      match kv.2 with
      | Json.str p => some p
      | _ => none
    else none

/-- The original paths that appear under a redirected artifact kind in
any non-global input key's output record, in document order. -/
def docOriginals : Json → List String
  | Json.obj entries =>
      entries.flatMap fun e =>
        if e.1 = "" then []
        else
          match e.2 with
          | Json.obj record => recordOriginals record
          | _ => []
  | _ => []

/-- Insertion into the ordered relocation table, mirroring assignment
into `absl::btree_map<std::string, std::string>`: keys are kept in
strictly increasing natural string order, and assigning to an existing
key overwrites its value. -/
def btreeInsert (k v : String) : List (String × String) → List (String × String)
  | [] => [(k, v)]
  | (k', v') :: rest =>
      if k < k' then (k, v) :: (k', v') :: rest
      else if k = k' then (k, v) :: rest
      else (k', v') :: btreeInsert k v rest

/-- Build the relocation table for a document: one entry per redirected
original path, keyed by the original path, valued by its relocated path.
Modelled from the spec: the relocation-table bookkeeping of the missing
`UpdateForIncremental` body. -/
def buildTable (root : String) (doc : Json) : List (String × String) :=
  (docOriginals doc).foldl (fun m p => btreeInsert p (relocated root p) m) []

/-- Shape check on a parsed document: the top level must be a mapping
from input keys to output records, and every output record must be a
mapping from artifact kinds to string path values. -/
def wellFormed : Json → Bool
  | Json.obj entries =>
      entries.all fun e =>
        match e.2 with
        | Json.obj record =>
            record.all fun kv =>
              match kv.2 with
              | Json.str _ => true
              | _ => false
        | _ => false
  | _ => false

/-- The in-memory state of one `OutputFileMap` instance: the JSON
document (`json_`) and the ordered relocation table
(`incremental_outputs_`, an `absl::btree_map` modelled as a
strictly-sorted association list). -/
structure OutputFileMap where
  json : Json
  incremental_outputs : List (String × String)
deriving Repr

/-- A freshly constructed instance (`explicit OutputFileMap() {}`): the
default-constructed `nlohmann::json` member is the JSON `null` value,
and the relocation table is empty. -/
def OutputFileMap.init : OutputFileMap :=
  { json := Json.null, incremental_outputs := [] }

/-- Errors signalled by `ReadFromPath`, per the spec's error model. -/
inductive ReadError where
  | parseError : ReadError
  | ioError : ReadError
deriving DecidableEq, Repr

/-- What the filesystem/parser collaborators deliver for one
`ReadFromPath` call: the file may be unreadable, its bytes may fail to
parse as JSON, or they parse to a tree. -/
inductive ReadInput where
  | ioFailure : ReadInput
  | malformed : ReadInput
  | parsed (doc : Json) : ReadInput

/-- `ReadFromPath`: reads the output file map from the JSON file at the
given path and updates it to support incremental builds.  Modelled from
the spec: the body is in the missing translation unit; the spec says the
call replaces the instance's document with the parsed contents, performs
the rewrite pass in place populating the relocation table, signals
`IOError` if the file cannot be read and `ParseError` if the bytes are
not well-formed in the expected shape, with no partial/half-rewritten
state on failure (the instance keeps its pre-call state).  The
storage-area root is the `root` parameter; the result pairs the error
outcome with the instance's post-call state. -/
def readFromPath (root : String) (m : OutputFileMap) (input : ReadInput) :
    Except ReadError Unit × OutputFileMap :=
  match input with
  | ReadInput.ioFailure => (Except.error ReadError.ioError, m)
  | ReadInput.malformed => (Except.error ReadError.parseError, m)
  | ReadInput.parsed doc =>
      if wellFormed doc then
        (Except.ok (),
          { json := updateForIncremental root doc,
            incremental_outputs := buildTable root doc })
      else (Except.error ReadError.parseError, m)

/-- `WriteToPath`: serializes the current (possibly rewritten) document
to bytes.  Modelled from the spec: the body is in the missing
translation unit; the spec says write-to-path serializes the current
document and writes the bytes to the destination (the write itself is an
external filesystem capability, so the model yields the bytes
written). -/
def writeToPath (m : OutputFileMap) : String := dump m.json

/-- Look up the value of a key in a JSON object's entry list. -/
def lookupEntry (k : String) : List (String × Json) → Option Json
  | [] => none
  | (k', v) :: rest => if k = k' then some v else lookupEntry k rest

/-- The keys of the relocation table, in iteration order. -/
def tableKeys (m : List (String × String)) : List String := m.map Prod.fst

/-- The relocation table's ordering invariant: iterating it yields
entries in strictly increasing natural string order of their keys. -/
def TableSorted (m : List (String × String)) : Prop :=
  List.Pairwise (fun a b => a.1 < b.1) m

/-- `p` appears under a redirected artifact kind in a non-global input
key's output record of the document. -/
def AppearsRedirected (doc : Json) (p : String) : Prop :=
  ∃ entries, doc = Json.obj entries ∧
    ∃ e ∈ entries, e.1 ≠ "" ∧
      ∃ record, e.2 = Json.obj record ∧
        ∃ kv ∈ record, kv.1 ∈ redirectedKinds ∧ kv.2 = Json.str p

/-- The top-level entry list of a document (empty for non-objects). -/
def topEntries : Json → List (String × Json)
  | Json.obj entries => entries
  | _ => []

/-- The top-level input keys of a document, in document order. -/
def topKeys (doc : Json) : List String := (topEntries doc).map Prod.fst

/-- The worked scenario document of the spec:
`{"a.swift": {"object": "/tmp/a.o", "swift-dependencies": "/tmp/a.swiftdeps"}}`. -/
def scenarioDoc : Json :=
  Json.obj [("a.swift", Json.obj
    [("object", Json.str "/tmp/a.o"),
     ("swift-dependencies", Json.str "/tmp/a.swiftdeps")])]

/-- A two-source document whose two redirected originals differ. -/
def twoSourceDoc : Json :=
  Json.obj [("a.swift", Json.obj [("swift-dependencies", Json.str "/a")]),
            ("b.swift", Json.obj [("swift-dependencies", Json.str "/b")])]

/-- A document whose global record and a non-global record both carry
the same path under a redirected kind. -/
def globalDupDoc : Json :=
  Json.obj [("", Json.obj [("swift-dependencies", Json.str "/x")]),
            ("a.swift", Json.obj [("swift-dependencies", Json.str "/x")])]

/-- A schema-violating document: the output record of `a.swift` is a
bare string where a mapping is required. -/
def badRecordDoc : Json := Json.obj [("a.swift", Json.str "oops")]

/-- A C++ return type as written in a declaration of
`output_file_map.h`. -/
inductive CppReturnType where
  | void : CppReturnType
  | constJsonRef : CppReturnType
  | constBtreeMapRef : CppReturnType
deriving DecidableEq, Repr

/-- One member function declaration of class `OutputFileMap`. -/
structure CppMethod where
  name : String
  returnType : CppReturnType
deriving DecidableEq, Repr

/-- The public member functions of `class OutputFileMap` exactly as
declared in `src/tools/worker/output_file_map.h`: the two accessors
return const references, and `ReadFromPath`/`WriteToPath` are declared
`void`. -/
def outputFileMapInterface : List CppMethod :=
  [{ name := "json", returnType := CppReturnType.constJsonRef },
   { name := "incremental_outputs",
     returnType := CppReturnType.constBtreeMapRef },
   { name := "ReadFromPath", returnType := CppReturnType.void },
   { name := "WriteToPath", returnType := CppReturnType.void }]

/-- The declared return type of the named member, if declared. -/
def declaredReturnType (n : String) : Option CppReturnType :=
  (outputFileMapInterface.find? fun mth => mth.name = n).map CppMethod.returnType

/-! ## Helper lemmas -/

/-- String append is left-cancellative. -/
theorem string_append_left_cancel {a p q : String} (h : a ++ p = a ++ q) :
    p = q := by
  have hd : (a ++ p).data = (a ++ q).data := congrArg String.data h
  rw [String.data_append, String.data_append] at hd
  exact String.ext (List.append_cancel_left hd)

/-- The relocated-path derivation is injective in the original path. -/
theorem relocated_injective {root p q : String} (hpq : p ≠ q) :
    relocated root p ≠ relocated root q := by
  intro h
  exact hpq (string_append_left_cancel h)

/-- An entry of `btreeInsert k v m` is either the inserted pair or an
entry of `m`. -/
theorem mem_btreeInsert {pw : String × String} {k v : String}
    {m : List (String × String)} (h : pw ∈ btreeInsert k v m) :
    pw = (k, v) ∨ pw ∈ m := by
  induction m with
  | nil => simpa [btreeInsert] using h
  | cons hd tl ih =>
    obtain ⟨k', v'⟩ := hd
    simp only [btreeInsert] at h
    split_ifs at h with h1 h2
    · rcases List.mem_cons.mp h with h | h
      · exact Or.inl h
      · exact Or.inr h
    · rcases List.mem_cons.mp h with h | h
      · exact Or.inl h
      · exact Or.inr (List.mem_cons_of_mem _ h)
    · rcases List.mem_cons.mp h with h | h
      · exact Or.inr (by simp [h])
      · rcases ih h with h' | h'
        · exact Or.inl h'
        · exact Or.inr (List.mem_cons_of_mem _ h')

/-- The key `k` is among the keys of `btreeInsert k v m`. -/
theorem key_mem_btreeInsert (k v : String) (m : List (String × String)) :
    k ∈ tableKeys (btreeInsert k v m) := by
  induction m with
  | nil => simp [btreeInsert, tableKeys]
  | cons hd tl ih =>
    obtain ⟨k', v'⟩ := hd
    simp only [btreeInsert]
    split_ifs with h1 h2
    · simp [tableKeys]
    · simp [tableKeys]
    · simp only [tableKeys, List.map_cons, List.mem_cons]
      exact Or.inr ih

/-- Keys of `m` survive `btreeInsert`. -/
theorem keys_subset_btreeInsert {x : String} (k v : String)
    {m : List (String × String)} (h : x ∈ tableKeys m) :
    x ∈ tableKeys (btreeInsert k v m) := by
  induction m with
  | nil => simp [tableKeys] at h
  | cons hd tl ih =>
    obtain ⟨k', v'⟩ := hd
    simp only [tableKeys, List.map_cons, List.mem_cons] at h
    simp only [btreeInsert]
    split_ifs with h1 h2
    · simp only [tableKeys, List.map_cons, List.mem_cons]
      tauto
    · subst h2
      simp only [tableKeys, List.map_cons, List.mem_cons]
      tauto
    · simp only [tableKeys, List.map_cons, List.mem_cons]
      rcases h with rfl | h
      · exact Or.inl rfl
      · exact Or.inr (ih h)

/-- `btreeInsert` preserves the strictly-sorted-keys invariant. -/
theorem tableSorted_btreeInsert {k v : String} {m : List (String × String)}
    (hs : TableSorted m) : TableSorted (btreeInsert k v m) := by
  induction m with
  | nil => simp [btreeInsert, TableSorted]
  | cons hd tl ih =>
    obtain ⟨k', v'⟩ := hd
    rw [TableSorted, List.pairwise_cons] at hs
    obtain ⟨hlt, htl⟩ := hs
    rw [TableSorted]
    simp only [btreeInsert]
    split_ifs with h1 h2
    · refine List.Pairwise.cons ?_ (List.Pairwise.cons hlt htl)
      intro x hx
      rcases List.mem_cons.mp hx with rfl | hx'
      · exact h1
      · exact lt_trans h1 (hlt x hx')
    · subst h2
      exact List.Pairwise.cons hlt htl
    · have hk'k : k' < k :=
        lt_of_le_of_ne (not_lt.mp h1) fun e => h2 e.symm
      refine List.Pairwise.cons ?_ (ih htl)
      intro x hx
      rcases mem_btreeInsert hx with rfl | hx'
      · exact hk'k
      · exact hlt x hx'

/-- Key membership of `btreeInsert`, as an equivalence. -/
theorem mem_keys_btreeInsert {x k v : String} {m : List (String × String)} :
    x ∈ tableKeys (btreeInsert k v m) ↔ x = k ∨ x ∈ tableKeys m := by
  constructor
  · intro h
    simp only [tableKeys, List.mem_map] at h
    obtain ⟨pw, hpw, rfl⟩ := h
    rcases mem_btreeInsert hpw with rfl | h'
    · exact Or.inl rfl
    · exact Or.inr (by simp only [tableKeys, List.mem_map]; exact ⟨pw, h', rfl⟩)
  · rintro (rfl | h)
    · exact key_mem_btreeInsert _ _ _
    · exact keys_subset_btreeInsert _ _ h

/-- Key membership of the table-building fold: a key is in the result
exactly when it is one of the folded-in originals or was already
present. -/
theorem mem_keys_buildTable_fold {x root : String} {ps : List String}
    {m0 : List (String × String)} :
    x ∈ tableKeys
        (ps.foldl (fun m p => btreeInsert p (relocated root p) m) m0) ↔
      x ∈ ps ∨ x ∈ tableKeys m0 := by
  induction ps generalizing m0 with
  | nil => simp
  | cons p ps ih =>
    simp only [List.foldl_cons, List.mem_cons]
    rw [ih, mem_keys_btreeInsert]
    tauto


/-- Every entry produced by the table-building fold maps its key to the
key's relocated path. -/
theorem values_buildTable_fold {root : String} {ps : List String}
    {m0 : List (String × String)}
    (h0 : ∀ pw ∈ m0, pw.2 = relocated root pw.1) {pw : String × String}
    (h : pw ∈ ps.foldl (fun m p => btreeInsert p (relocated root p) m) m0) :
    pw.2 = relocated root pw.1 := by
  induction ps generalizing m0 with
  | nil => exact h0 _ h
  | cons p ps ih =>
    refine ih ?_ h
    intro qw hq
    rcases mem_btreeInsert hq with rfl | hq'
    · rfl
    · exact h0 _ hq'

/-- The table-building fold preserves the sortedness invariant. -/
theorem tableSorted_buildTable_fold {root : String} {ps : List String}
    {m0 : List (String × String)} (h0 : TableSorted m0) :
    TableSorted (ps.foldl (fun m p => btreeInsert p (relocated root p) m) m0) := by
  induction ps generalizing m0 with
  | nil => exact h0
  | cons p ps ih => exact ih (tableSorted_btreeInsert h0)

/-- The relocation table built for a document is strictly sorted by
key. -/
theorem tableSorted_buildTable (root : String) (doc : Json) :
    TableSorted (buildTable root doc) :=
  tableSorted_buildTable_fold List.Pairwise.nil

/-- The keys of the relocation table built for a document are exactly
the originals collected from the document. -/
theorem mem_keys_buildTable {x root : String} {doc : Json} :
    x ∈ tableKeys (buildTable root doc) ↔ x ∈ docOriginals doc := by
  rw [buildTable, mem_keys_buildTable_fold]
  simp [tableKeys]

/-- Every entry of the relocation table built for a document maps its
key to the key's relocated path. -/
theorem values_buildTable {root : String} {doc : Json} {pw : String × String}
    (h : pw ∈ buildTable root doc) : pw.2 = relocated root pw.1 :=
  values_buildTable_fold (by intro qw hq; cases hq) h

/-- Membership in `recordOriginals`: exactly the string values of the
record's redirected kinds. -/
theorem mem_recordOriginals {record : List (String × Json)} {p : String} :
    p ∈ recordOriginals record ↔
      ∃ kv ∈ record, kv.1 ∈ redirectedKinds ∧ kv.2 = Json.str p := by
  simp only [recordOriginals, List.mem_filterMap]
  constructor
  · rintro ⟨⟨k1, v1⟩, hkv, hf⟩
    split_ifs at hf with hk
    · cases v1 with
      | str s =>
          exact ⟨(k1, Json.str s), hkv, hk,
            congrArg Json.str (Option.some.inj hf)⟩
      | null => exact Option.noConfusion hf
      | bool b => exact Option.noConfusion hf
      | num n => exact Option.noConfusion hf
      | arr es => exact Option.noConfusion hf
      | obj es => exact Option.noConfusion hf
  · rintro ⟨kv, hkv, hk, h2⟩
    exact ⟨kv, hkv, by rw [if_pos hk, h2]⟩

/-- Membership in `docOriginals` coincides with appearing under a
redirected artifact kind in a non-global input key's output record. -/
theorem mem_docOriginals {doc : Json} {p : String} :
    p ∈ docOriginals doc ↔ AppearsRedirected doc p := by
  cases doc with
  | obj entries =>
    simp only [docOriginals, List.mem_flatMap, AppearsRedirected]
    constructor
    · rintro ⟨⟨k1, v1⟩, he, hp⟩
      refine ⟨entries, rfl, (k1, v1), he, ?_⟩
      split_ifs at hp with hk
      · exact absurd hp (List.not_mem_nil p)
      · refine ⟨hk, ?_⟩
        cases v1 with
        | obj record => exact ⟨record, rfl, mem_recordOriginals.mp hp⟩
        | null => exact absurd hp (List.not_mem_nil p)
        | bool b => exact absurd hp (List.not_mem_nil p)
        | num n => exact absurd hp (List.not_mem_nil p)
        | str s => exact absurd hp (List.not_mem_nil p)
        | arr es => exact absurd hp (List.not_mem_nil p)
    · rintro ⟨entries', heq, e, he, hk, record, h2, hkv⟩
      cases heq
      refine ⟨e, he, ?_⟩
      rw [if_neg hk, h2]
      exact mem_recordOriginals.mpr hkv
  | null => simp [docOriginals, AppearsRedirected]
  | bool b => simp [docOriginals, AppearsRedirected]
  | num n => simp [docOriginals, AppearsRedirected]
  | str s => simp [docOriginals, AppearsRedirected]
  | arr elems => simp [docOriginals, AppearsRedirected]

/-- String append is associative. -/
theorem string_append_assoc (a b c : String) :
    a ++ b ++ c = a ++ (b ++ c) := by
  apply String.ext
  simp [String.data_append, List.append_assoc]

/-- A well-formed document is a top-level object. -/
theorem wellFormed_obj {doc : Json} (h : wellFormed doc = true) :
    ∃ entries, doc = Json.obj entries := by
  cases doc with
  | obj entries => exact ⟨entries, rfl⟩
  | null => exact absurd h (by simp [wellFormed])
  | bool b => exact absurd h (by simp [wellFormed])
  | num n => exact absurd h (by simp [wellFormed])
  | str s => exact absurd h (by simp [wellFormed])
  | arr es => exact absurd h (by simp [wellFormed])

/-- In a well-formed document, every non-global entry's value is an
output record (an object). -/
theorem wellFormed_entry_obj {entries : List (String × Json)}
    (h : wellFormed (Json.obj entries) = true) {e : String × Json}
    (he : e ∈ entries) : ∃ record, e.2 = Json.obj record := by
  simp only [wellFormed, List.all_eq_true] at h
  have h' := h e he
  cases h2 : e.2 with
  | obj record => exact ⟨record, rfl⟩
  | null => rw [h2] at h'; simp at h'
  | bool b => rw [h2] at h'; simp at h'
  | num n => rw [h2] at h'; simp at h'
  | str s => rw [h2] at h'; simp at h'
  | arr es => rw [h2] at h'; simp at h'

/-- Inversion of a successful `readFromPath`: the input parsed to a
well-formed document, and the post-call state holds the rewritten
document and its relocation table. -/
theorem readFromPath_ok {root : String} {m : OutputFileMap}
    {input : ReadInput} {r : OutputFileMap}
    (h : readFromPath root m input = (Except.ok (), r)) :
    ∃ doc, input = ReadInput.parsed doc ∧ wellFormed doc = true ∧
      r = { json := updateForIncremental root doc,
            incremental_outputs := buildTable root doc } := by
  cases input with
  | ioFailure => simp [readFromPath] at h
  | malformed => simp [readFromPath] at h
  | parsed doc =>
    by_cases hwf : wellFormed doc
    · refine ⟨doc, rfl, hwf, ?_⟩
      simp only [readFromPath, if_pos hwf, Prod.mk.injEq] at h
      exact h.2.symm
    · simp only [readFromPath, if_neg hwf, Prod.mk.injEq] at h
      exact absurd h.1 (by simp)

/-- Looking up a key in the rewritten entry list is looking it up in the
original list and rewriting the found value. -/
theorem lookupEntry_map_rewrite (root k : String)
    (entries : List (String × Json)) :
    lookupEntry k (entries.map fun e => (e.1, rewriteEntry root e.1 e.2)) =
      (lookupEntry k entries).map (rewriteEntry root k) := by
  induction entries with
  | nil => rfl
  | cons e rest ih =>
    obtain ⟨k', v⟩ := e
    by_cases h : k = k'
    · subst h
      simp [lookupEntry]
    · simp [lookupEntry, h, ih]

/-- The global key's record is left untouched by the per-entry
rewrite. -/
theorem rewriteEntry_global (root : String) (v : Json) :
    rewriteEntry root "" v = v := by
  simp [rewriteEntry]

/-- Rewriting a record preserves its artifact kinds, in order. -/
theorem rewriteRecord_keys (root : String) (record : List (String × Json)) :
    (rewriteRecord root record).map Prod.fst = record.map Prod.fst := by
  induction record with
  | nil => rfl
  | cons kv rest ih =>
    obtain ⟨k1, v1⟩ := kv
    simp only [rewriteRecord, List.map_cons] at ih ⊢
    rw [ih]
    split_ifs with hk
    · cases v1 <;> rfl
    · rfl

/-- A record member whose kind is not selected for redirection survives
the rewrite unchanged. -/
theorem rewriteRecord_untouched {root : String} {record : List (String × Json)}
    {kv : String × Json} (h : kv ∈ record) (hk : kv.1 ∉ redirectedKinds) :
    kv ∈ rewriteRecord root record :=
  List.mem_map.mpr ⟨kv, h, by rw [if_neg hk]⟩

/-- Evaluation of the relocation table of the two-source document. -/
theorem buildTable_twoSourceDoc :
    buildTable "/s" twoSourceDoc =
      [("/a", relocated "/s" "/a"), ("/b", relocated "/s" "/b")] := by
  show btreeInsert "/b" (relocated "/s" "/b")
      (btreeInsert "/a" (relocated "/s" "/a") []) = _
  have h1 : ¬("/b" < "/a") := fun hlt =>
    absurd (String.lt_iff_toList_lt.mp hlt) (by decide)
  have h2 : ¬("/b" = "/a") := by decide
  show btreeInsert "/b" (relocated "/s" "/b") [("/a", relocated "/s" "/a")] = _
  rw [btreeInsert, if_neg h1, if_neg h2]
  rfl

/-! ## Claim theorems -/

/-- C1: the relocated-path derivation performed during the rewrite pass
is injective — within one successful read-from-path call, two entries of
the resulting relocation table with distinct original paths have
distinct relocated paths. -/
theorem claim_C1_relocation_injective {root : String} {m r : OutputFileMap}
    {input : ReadInput} {p1 w1 p2 w2 : String}
    (h : readFromPath root m input = (Except.ok (), r))
    (h1 : (p1, w1) ∈ r.incremental_outputs)
    (h2 : (p2, w2) ∈ r.incremental_outputs)
    (hne : p1 ≠ p2) : w1 ≠ w2 := by
  obtain ⟨doc, -, hwf, rfl⟩ := readFromPath_ok h
  have e1 : w1 = relocated root p1 := values_buildTable h1
  have e2 : w2 = relocated root p2 := values_buildTable h2
  rw [e1, e2]
  exact relocated_injective hne

/-- Witness for C1: a concrete read of a two-source document, whose two
distinct originals receive distinct relocated paths. -/
theorem claim_C1_witness : relocated "/s" "/a" ≠ relocated "/s" "/b" :=
  @claim_C1_relocation_injective "/s" OutputFileMap.init
    { json := updateForIncremental "/s" twoSourceDoc,
      incremental_outputs := buildTable "/s" twoSourceDoc }
    (ReadInput.parsed twoSourceDoc)
    "/a" (relocated "/s" "/a") "/b" (relocated "/s" "/b")
    rfl
    (by show ("/a", relocated "/s" "/a") ∈ buildTable "/s" twoSourceDoc
        rw [buildTable_twoSourceDoc]
        exact List.mem_cons_self _ _)
    (by show ("/b", relocated "/s" "/b") ∈ buildTable "/s" twoSourceDoc
        rw [buildTable_twoSourceDoc]
        exact List.mem_cons_of_mem _ (List.mem_cons_self _ _))
    (by decide)

/-- C2: read-from-path is deterministic — two successful reads of the
same parsed document, from any two prior instance states, produce
identical relocation tables. -/
theorem claim_C2_read_deterministic {root : String} {m1 m2 r1 r2 : OutputFileMap}
    {input : ReadInput}
    (h1 : readFromPath root m1 input = (Except.ok (), r1))
    (h2 : readFromPath root m2 input = (Except.ok (), r2)) :
    r1.incremental_outputs = r2.incremental_outputs := by
  obtain ⟨doc, rfl, hwf, rfl⟩ := readFromPath_ok h1
  obtain ⟨doc', heq, hwf', rfl⟩ := readFromPath_ok h2
  cases heq
  rfl

/-- Witness for C2: two concrete reads of the same document from two
different prior states yield the same table. -/
theorem claim_C2_witness :
    ({ json := updateForIncremental "/s" twoSourceDoc,
       incremental_outputs := buildTable "/s" twoSourceDoc } :
        OutputFileMap).incremental_outputs =
    ({ json := updateForIncremental "/s" twoSourceDoc,
       incremental_outputs := buildTable "/s" twoSourceDoc } :
        OutputFileMap).incremental_outputs :=
  @claim_C2_read_deterministic "/s" OutputFileMap.init
    { json := Json.str "stale", incremental_outputs := [("q", "w")] }
    _ _ (ReadInput.parsed twoSourceDoc) rfl rfl

/-- C3: after a successful read-from-path, the key set of the relocation
table is exactly the set of original path values appearing under a
redirected artifact kind in a non-global input key's output record of
the input document. -/
theorem claim_C3_table_coverage {root : String} {m r : OutputFileMap}
    {doc : Json}
    (h : readFromPath root m (ReadInput.parsed doc) = (Except.ok (), r)) :
    ∀ p, p ∈ tableKeys r.incremental_outputs ↔ AppearsRedirected doc p := by
  obtain ⟨doc', heq, hwf, rfl⟩ := readFromPath_ok h
  cases heq
  intro p
  exact mem_keys_buildTable.trans mem_docOriginals

/-- Witness for C3: coverage instantiated at the worked scenario
document and its redirected original. -/
theorem claim_C3_witness :
    "/tmp/a.swiftdeps" ∈ tableKeys (buildTable "/s" scenarioDoc) ↔
      AppearsRedirected scenarioDoc "/tmp/a.swiftdeps" :=
  @claim_C3_table_coverage "/s" OutputFileMap.init
    { json := updateForIncremental "/s" scenarioDoc,
      incremental_outputs := buildTable "/s" scenarioDoc }
    scenarioDoc rfl "/tmp/a.swiftdeps"

/-- C4: a malformed input (unparsable bytes, or a document with a
non-mapping where a mapping is required) makes read-from-path signal
`ParseError` and leaves the instance's document and relocation table in
their pre-call state. -/
theorem claim_C4_malformed_state {root : String} {m : OutputFileMap}
    {doc : Json} (hbad : wellFormed doc = false) :
    readFromPath root m ReadInput.malformed =
      (Except.error ReadError.parseError, m) ∧
    readFromPath root m (ReadInput.parsed doc) =
      (Except.error ReadError.parseError, m) := by
  constructor
  · rfl
  · simp [readFromPath, hbad]

/-- Witness for C4: a concrete document whose output record is a bare
string triggers `ParseError` and leaves a fresh instance unchanged. -/
theorem claim_C4_witness :
    wellFormed badRecordDoc = false ∧
    (readFromPath "/s" OutputFileMap.init ReadInput.malformed =
        (Except.error ReadError.parseError, OutputFileMap.init) ∧
      readFromPath "/s" OutputFileMap.init (ReadInput.parsed badRecordDoc) =
        (Except.error ReadError.parseError, OutputFileMap.init)) :=
  ⟨rfl, @claim_C4_malformed_state "/s" OutputFileMap.init badRecordDoc rfl⟩

/-- C7: the relocation table is an ordered mapping — a fresh instance's
table is sorted, and any read-from-path call starting from a sorted
table leaves a table whose iteration order is strictly increasing in the
natural string ordering of its keys. -/
theorem claim_C7_table_sorted :
    TableSorted OutputFileMap.init.incremental_outputs ∧
    ∀ (root : String) (m : OutputFileMap) (input : ReadInput),
      TableSorted m.incremental_outputs →
      TableSorted (readFromPath root m input).2.incremental_outputs := by
  refine ⟨List.Pairwise.nil, ?_⟩
  intro root m input hm
  cases input with
  | ioFailure => exact hm
  | malformed => exact hm
  | parsed doc =>
    by_cases hwf : wellFormed doc
    · simp only [readFromPath, if_pos hwf]
      exact tableSorted_buildTable root doc
    · simp only [readFromPath, if_neg hwf]
      exact hm

/-- Witness for C7: the table of a concrete read is sorted. -/
theorem claim_C7_witness :
    TableSorted (readFromPath "/s" OutputFileMap.init
      (ReadInput.parsed twoSourceDoc)).2.incremental_outputs :=
  claim_C7_table_sorted.2 "/s" OutputFileMap.init
    (ReadInput.parsed twoSourceDoc) List.Pairwise.nil

/-- C5 counterexample: in `globalDupDoc` the path `/x` appears both in
the global record and under a redirected kind of `a.swift`; after a
successful read the global record's path `/x` IS a key of the relocation
table, so "none of the global record's paths is entered into the
relocation table" fails as stated. -/
theorem claim_C5_counterexample :
    wellFormed globalDupDoc = true ∧
    lookupEntry "" (topEntries globalDupDoc) =
      some (Json.obj [("swift-dependencies", Json.str "/x")]) ∧
    (readFromPath "/s" OutputFileMap.init
      (ReadInput.parsed globalDupDoc)).1 = Except.ok () ∧
    "/x" ∈ tableKeys (readFromPath "/s" OutputFileMap.init
      (ReadInput.parsed globalDupDoc)).2.incremental_outputs := by
  refine ⟨rfl, rfl, rfl, ?_⟩
  show "/x" ∈ ["/x"]
  exact List.mem_cons_self _ _

/-- C5 (amended): after a successful read-from-path the rewrite pass
leaves the output record under the distinguished empty (global) key
unmodified, and no relocation-table entry arises from the global record:
every table key appears under a redirected kind of a non-global entry.
(The original claim's stronger clause — that no path value of the global
record is a table key — fails when the same path also appears under a
redirected kind of a non-global entry.) -/
theorem claim_C5_global_untouched {root : String} {m r : OutputFileMap}
    {doc : Json}
    (h : readFromPath root m (ReadInput.parsed doc) = (Except.ok (), r)) :
    lookupEntry "" (topEntries r.json) = lookupEntry "" (topEntries doc) ∧
    ∀ p ∈ tableKeys r.incremental_outputs, AppearsRedirected doc p := by
  obtain ⟨doc', heq, hwf, rfl⟩ := readFromPath_ok h
  cases heq
  obtain ⟨entries, rfl⟩ := wellFormed_obj hwf
  constructor
  · show lookupEntry ""
        (entries.map fun e => (e.1, rewriteEntry root e.1 e.2)) =
      lookupEntry "" entries
    rw [lookupEntry_map_rewrite]
    cases lookupEntry "" entries with
    | none => rfl
    | some v => simp [rewriteEntry_global]
  · intro p hp
    exact mem_docOriginals.mp (mem_keys_buildTable.mp hp)

/-- Witness for C5: the amended statement instantiated at the
double-occurrence document. -/
theorem claim_C5_witness :
    lookupEntry "" (topEntries (updateForIncremental "/s" globalDupDoc)) =
      lookupEntry "" (topEntries globalDupDoc) ∧
    ∀ p ∈ tableKeys (buildTable "/s" globalDupDoc),
      AppearsRedirected globalDupDoc p :=
  @claim_C5_global_untouched "/s" OutputFileMap.init
    { json := updateForIncremental "/s" globalDupDoc,
      incremental_outputs := buildTable "/s" globalDupDoc }
    globalDupDoc rfl

/-- C6: for a well-formed document, read-from-path followed by
write-to-path emits exactly the serialization of the rewritten tree, and
the rewrite preserves the top-level keys in order, preserves every
record's artifact kinds in order, and keeps every record member whose
kind is not selected for redirection identical (hence byte-for-byte
identical once serialized). -/
theorem claim_C6_roundtrip_untouched {root : String} {m r : OutputFileMap}
    {doc : Json}
    (h : readFromPath root m (ReadInput.parsed doc) = (Except.ok (), r)) :
    writeToPath r = dump r.json ∧
    topKeys r.json = topKeys doc ∧
    ∀ k record, lookupEntry k (topEntries doc) = some (Json.obj record) →
      ∃ record2,
        lookupEntry k (topEntries r.json) = some (Json.obj record2) ∧
        record2.map Prod.fst = record.map Prod.fst ∧
        ∀ kv ∈ record, kv.1 ∉ redirectedKinds → kv ∈ record2 := by
  obtain ⟨doc', heq, hwf, rfl⟩ := readFromPath_ok h
  cases heq
  obtain ⟨entries, rfl⟩ := wellFormed_obj hwf
  refine ⟨rfl, ?_, ?_⟩
  · show ((entries.map fun e => (e.1, rewriteEntry root e.1 e.2)).map
      Prod.fst) = entries.map Prod.fst
    rw [List.map_map]
    rfl
  · intro k record hk
    have hlook : lookupEntry k
        (entries.map fun e => (e.1, rewriteEntry root e.1 e.2)) =
        some (rewriteEntry root k (Json.obj record)) := by
      rw [lookupEntry_map_rewrite]
      rw [show lookupEntry k entries = some (Json.obj record) from hk]
      rfl
    by_cases hglob : k = ""
    · subst hglob
      refine ⟨record, ?_, rfl, fun kv hkv _ => hkv⟩
      rw [show topEntries (updateForIncremental root (Json.obj entries)) =
        entries.map fun e => (e.1, rewriteEntry root e.1 e.2) from rfl]
      rw [hlook, rewriteEntry_global]
    · refine ⟨rewriteRecord root record, ?_, rewriteRecord_keys root record,
        fun kv hkv hk2 => rewriteRecord_untouched hkv hk2⟩
      rw [show topEntries (updateForIncremental root (Json.obj entries)) =
        entries.map fun e => (e.1, rewriteEntry root e.1 e.2) from rfl]
      rw [hlook]
      simp [rewriteEntry, hglob]

/-- Witness for C6: the round-trip statement instantiated at the worked
scenario document. -/
theorem claim_C6_witness :
    writeToPath { json := updateForIncremental "/s" scenarioDoc,
                  incremental_outputs := buildTable "/s" scenarioDoc } =
      dump (updateForIncremental "/s" scenarioDoc) ∧
    topKeys (updateForIncremental "/s" scenarioDoc) = topKeys scenarioDoc ∧
    ∀ k record, lookupEntry k (topEntries scenarioDoc) =
        some (Json.obj record) →
      ∃ record2,
        lookupEntry k (topEntries (updateForIncremental "/s" scenarioDoc)) =
          some (Json.obj record2) ∧
        record2.map Prod.fst = record.map Prod.fst ∧
        ∀ kv ∈ record, kv.1 ∉ redirectedKinds → kv ∈ record2 :=
  @claim_C6_roundtrip_untouched "/s" OutputFileMap.init
    { json := updateForIncremental "/s" scenarioDoc,
      incremental_outputs := buildTable "/s" scenarioDoc }
    scenarioDoc rfl

/-- C8 counterexample: a freshly constructed instance's document is the
default-constructed `nlohmann::json`, which is JSON `null`; it is not a
well-formed output-file-map document (the top level must be a mapping),
and the bytes written for it differ from the serialization of the
minimal empty mapping. -/
theorem claim_C8_counterexample :
    wellFormed OutputFileMap.init.json = false ∧
    writeToPath OutputFileMap.init ≠ dump (Json.obj []) := by
  refine ⟨rfl, ?_⟩
  decide

/-- C8 (amended): write-to-path on a freshly constructed instance on
which read-from-path was never called does not signal an error — it
serializes the default document, JSON `null`, and writes the bytes
`null` (a valid JSON document but not an output-file-map mapping). -/
theorem claim_C8_write_unread : writeToPath OutputFileMap.init = "null" :=
  rfl

/-- C9: reading the worked scenario document succeeds; afterwards the
`object` value of `a.swift` is still exactly `/tmp/a.o`, the
`swift-dependencies` value is the relocated path, which lies under the
storage root, and the relocation table holds exactly the one entry
mapping the original `/tmp/a.swiftdeps` to that relocated path. -/
theorem claim_C9_scenario (root : String) :
    (readFromPath root OutputFileMap.init
      (ReadInput.parsed scenarioDoc)).1 = Except.ok () ∧
    lookupEntry "a.swift" (topEntries (readFromPath root OutputFileMap.init
        (ReadInput.parsed scenarioDoc)).2.json) =
      some (Json.obj
        [("object", Json.str "/tmp/a.o"),
         ("swift-dependencies",
          Json.str (relocated root "/tmp/a.swiftdeps"))]) ∧
    (∃ rest, relocated root "/tmp/a.swiftdeps" = root ++ rest) ∧
    (readFromPath root OutputFileMap.init
        (ReadInput.parsed scenarioDoc)).2.incremental_outputs =
      [("/tmp/a.swiftdeps", relocated root "/tmp/a.swiftdeps")] :=
  ⟨rfl, rfl, ⟨"/" ++ "/tmp/a.swiftdeps",
    string_append_assoc root "/" "/tmp/a.swiftdeps"⟩, rfl⟩

/-- Witness for C9: the scenario evaluated at a concrete storage root
yields the one-entry relocation table. -/
theorem claim_C9_witness :
    (readFromPath "/s" OutputFileMap.init
        (ReadInput.parsed scenarioDoc)).2.incremental_outputs =
      [("/tmp/a.swiftdeps", relocated "/s" "/tmp/a.swiftdeps")] :=
  (claim_C9_scenario "/s").2.2.2

/-- C10: in the declared public interface of `class OutputFileMap`,
both `ReadFromPath` and `WriteToPath` have return type `void`, so no
error code, status, or error value is delivered in-band through the
function result; failure signaling can only use a channel outside the
declared interface. -/
theorem claim_C10_void_interface :
    declaredReturnType "ReadFromPath" = some CppReturnType.void ∧
    declaredReturnType "WriteToPath" = some CppReturnType.void :=
  ⟨rfl, rfl⟩

end OutputFileMapVerif
